import Mathlib

/-!
# md2jira: a verification development

`scripts/md2jira/main.go` is a command-line shell: it checks its argument
vector, opens and reads one file, hands the content to `md.ToJiraMD` and
prints the result.  The shell is embedded here as a program in a small
effect monad that records every observable action (slice indexing, file
system calls, converter calls, writes to standard output, `os.Exit`) in a
chronological trace.

The converter `md.ToJiraMD` comes from the module
`github.com/ankitpokhrel/jira-cli/pkg/md`, whose source is not part of the
repository.  The shell is therefore parametric in it; the properties of the
converter itself are stated over `convert`, a model written from the
specification text.
-/

namespace Md2Jira

/-! ## Go values -/

/-- One byte of a Go string. -/
abbrev Byte := UInt8

/-- A Go `string` or `[]byte`: a finite byte sequence, not necessarily valid
UTF-8.  The conversion `string(b)` keeps the bytes as they are. -/
abbrev GoString := List Byte

/-- The byte of an ASCII character. -/
def ch (c : Char) : Byte := c.toUInt8

/-- A string literal of the Go source: the UTF-8 bytes of its text. -/
def goLit (s : String) : GoString := s.toList.flatMap String.utf8EncodeChar

/-- A non-nil Go `error`, observed through its `Error()` method. -/
structure GoError where
  Error : GoString
deriving DecidableEq

/-- An open `*os.File`, identified by its descriptor. -/
structure File where
  fd : Nat
deriving DecidableEq

/-- The answers the operating system gives during one run. `Open` is
`os.Open` (either a non-nil error or a file); `ReadAll` is `ioutil.ReadAll`,
which returns the bytes read so far together with an error that is nil
(`none`) when the end of the file was reached. -/
structure FileSystem where
  Open : GoString → Except GoError File
  ReadAll : File → GoString × Option GoError

/-! ## Observable actions -/

/-- The actions of a run, in the order of the trace. -/
inductive Event where
  | index (i len : Nat)
  | osOpen (name : GoString)
  | readAll (f : File)
  | toJiraMD (input : GoString)
  | stdoutWrite (bytes : GoString)
  | osExit (code : Nat)
deriving DecidableEq

/-- Reasons for which a run stops before `main` returns. -/
inductive Halt where
  | exit (code : Nat)
  | indexOutOfRange (i len : Nat)
deriving DecidableEq

/-- Result of running a computation from a given trace. -/
inductive Step (α : Type) where
  | next (a : α) (trace : List Event)
  | halt (h : Halt) (trace : List Event)

/-- Computations of the shell: trace passing with early termination. -/
def GoM (α : Type) : Type := List Event → Step α

/-- Sequencing: a halted computation skips everything that follows it. -/
def GoM.bind {α β : Type} (m : GoM α) (f : α → GoM β) : GoM β := fun tr =>
  match m tr with
  | .next a tr1 => f a tr1
  | .halt h tr1 => .halt h tr1

instance : Monad GoM where
  pure a := fun tr => .next a tr
  bind := GoM.bind

/-- Slice indexing `xs[i]`: a run-time panic when `i` is out of range. -/
def index (xs : List GoString) (i : Nat) : GoM GoString := fun tr =>
  match xs[i]? with
  | some x => .next x (tr ++ [.index i xs.length])
  | none => .halt (.indexOutOfRange i xs.length) (tr ++ [.index i xs.length])

/-- An operand of a formatting call. -/
inductive Operand where
  | str (s : GoString)
  | err (e : GoError)

/-- Rendering of an operand under `%s` or `%v`: a string is copied, an error
prints the result of `Error()`. -/
def Operand.render : Operand → GoString
  | .str s => s
  | .err e => e.Error

/-- The part of `fmt`'s formatting that `main` relies on: the verbs `%s` and
`%v` consume one operand each, every other byte of the format is copied. -/
def Sprintf : GoString → List Operand → GoString
  | [], _ => []
  | [c], _ => [c]
  | c :: v :: rest, ops =>
    if c = ch '%' ∧ (v = ch 's' ∨ v = ch 'v') then
      match ops with
      | op :: ops1 => op.render ++ Sprintf rest ops1
      | [] => c :: v :: Sprintf rest []
    else c :: Sprintf (v :: rest) ops

/-- `fmt.Printf`: one write of the formatted text to standard output. -/
def Printf (format : GoString) (ops : List Operand) : GoM Unit := fun tr =>
  .next () (tr ++ [.stdoutWrite (Sprintf format ops)])

/-- `fmt.Println` of one string: the string and a newline, in one write. -/
def Println (s : GoString) : GoM Unit := fun tr =>
  .next () (tr ++ [.stdoutWrite (s ++ goLit "\n")])

/-- `os.Exit`: the process stops at once with the given status. -/
def osExit {α : Type} (code : Nat) : GoM α := fun tr =>
  .halt (.exit code) (tr ++ [.osExit code])

/-- `os.Open`. -/
def osOpen (fs : FileSystem) (name : GoString) : GoM (Except GoError File) := fun tr =>
  .next (fs.Open name) (tr ++ [.osOpen name])

/-- `ioutil.ReadAll`. -/
def ioutilReadAll (fs : FileSystem) (f : File) : GoM (GoString × Option GoError) := fun tr =>
  .next (fs.ReadAll f) (tr ++ [.readAll f])

/-- A call of the converter `md.ToJiraMD`, a function from strings to
strings. -/
def callToJiraMD (ToJiraMD : GoString → GoString) (s : GoString) : GoM GoString := fun tr =>
  .next (ToJiraMD s) (tr ++ [.toJiraMD s])

/-! ## The program -/

/-- The function `main` of `scripts/md2jira/main.go`; `osArgs` is `os.Args`. -/
def main (ToJiraMD : GoString → GoString) (fs : FileSystem) (osArgs : List GoString) :
    GoM Unit := do
  let args := osArgs
  if args.length ≠ 2 then
    let a0 ← index args 0
    Printf (goLit "Usage: %s <filename>\n") [.str a0]
    osExit 1
  let filename ← index args 1
  match ← osOpen fs filename with
  | .error err =>
    Printf (goLit "unable to open file: %v") [.err err]
    osExit 1
  | .ok inputFile =>
    match ← ioutilReadAll fs inputFile with
    | (_, some err) =>
      Printf (goLit "unable to read file: %v") [.err err]
      osExit 1
    | (inputBytes, none) =>
      let out ← callToJiraMD ToJiraMD inputBytes
      Println out

/-- How a process ended. -/
inductive Termination where
  | returned
  | exited (code : Nat)
  | panicked (i len : Nat)
deriving DecidableEq

/-- What a run leaves behind: its trace and the way it ended. -/
structure Run where
  trace : List Event
  ending : Termination
deriving DecidableEq

/-- Run `main` as a fresh process, starting from the empty trace. -/
def run (ToJiraMD : GoString → GoString) (fs : FileSystem) (osArgs : List GoString) : Run :=
  match main ToJiraMD fs osArgs [] with
  | .next _ tr => ⟨tr, .returned⟩
  | .halt (.exit code) tr => ⟨tr, .exited code⟩
  | .halt (.indexOutOfRange i len) tr => ⟨tr, .panicked i len⟩

/-- Everything written to standard output, in order. -/
def stdoutOf : List Event → GoString
  | [] => []
  | .stdoutWrite b :: es => b ++ stdoutOf es
  | _ :: es => stdoutOf es

/-- Standard output of a run. -/
def Run.stdout (r : Run) : GoString := stdoutOf r.trace

/-- Exit status of the process: 0 when `main` returns, the argument of
`os.Exit`, and 2 for a run-time panic. -/
def Run.status (r : Run) : Nat :=
  match r.ending with
  | .returned => 0
  | .exited code => code
  | .panicked _ _ => 2

/-- Inputs of the converter calls of a trace, in order. -/
def converterCalls : List Event → List GoString
  | [] => []
  | .toJiraMD s :: es => s :: converterCalls es
  | _ :: es => converterCalls es

/-- Names passed to `os.Open` in a trace, in order. -/
def opened : List Event → List GoString
  | [] => []
  | .osOpen n :: es => n :: opened es
  | _ :: es => opened es

/-- Files passed to `ioutil.ReadAll` in a trace, in order. -/
def readFiles : List Event → List File
  | [] => []
  | .readAll f :: es => f :: readFiles es
  | _ :: es => readFiles es

/-- What happens to the file named on the command line. -/
inductive FileOutcome where
  | openFails (e : GoError)
  | readFails (e : GoError)
  | content (c : GoString)
deriving DecidableEq

/-- Outcome of opening `name` and reading the file obtained. -/
def FileSystem.outcome (fs : FileSystem) (name : GoString) : FileOutcome :=
  match fs.Open name with
  | .error e => .openFails e
  | .ok f =>
    match fs.ReadAll f with
    | (_, some e) => .readFails e
    | (c, none) => .content c

/-- A file system with a single readable file. -/
def singleFile (name content : GoString) : FileSystem where
  Open n := if n = name then .ok ⟨3⟩ else .error ⟨goLit "open: no such file or directory"⟩
  ReadAll f := if f.fd = 3 then (content, none) else ([], some ⟨goLit "bad file descriptor"⟩)

/-- A file system whose only file opens but fails while being read, after
`readSoFar` has been delivered. -/
def brokenFile (name readSoFar : GoString) : FileSystem where
  Open n := if n = name then .ok ⟨3⟩ else .error ⟨goLit "open: no such file or directory"⟩
  ReadAll _ := (readSoFar, some ⟨goLit "read: input/output error"⟩)

/-- An argument vector with one positional argument. -/
def argsOne : List GoString := [goLit "md2jira", goLit "notes.md"]

/-- An argument vector without positional argument. -/
def argsNone : List GoString := [goLit "md2jira"]

/-- A file system in which no file can be opened. -/
def noFile : FileSystem where
  Open _ := .error ⟨goLit "open notes.md: no such file or directory"⟩
  ReadAll _ := ([], some ⟨goLit "bad file descriptor"⟩)

/-- A file system in which every name opens, under descriptors other than
those of `singleFile`; only `notes.md` has the content `hello`. -/
def manyFiles : FileSystem where
  Open n := if n = goLit "notes.md" then .ok ⟨7⟩ else .ok ⟨8⟩
  ReadAll f := if f.fd = 7 then (goLit "hello", none) else (goLit "other", none)

/-- A converter used to exercise the shell: it puts a mark in front of its
input. -/
def markConv (s : GoString) : GoString := goLit ">" ++ s

/-! ## The converter

`md.ToJiraMD` is implemented outside the repository.  The definitions of this
section follow the specification: its data model (§3), the block segmenter
(§4.1), the inline span tokenizer (§4.2) and the block emitter (§4.3), run as
the single forward pass Document → Blocks → Blocks+Spans → Output text. -/

/-- Modelled from the spec: the InlineSpan of §3, absent from the repository
like the rest of the converter.  Spans are flat: bold+italic is a span of its
own, and a span carries the raw text between its delimiters. -/
inductive InlineSpan where
  | PlainText (text : GoString)
  | Bold (text : GoString)
  | Italic (text : GoString)
  | BoldItalic (text : GoString)
  | InlineCode (text : GoString)
  | Link (text url : GoString)
  | Image (alt url : GoString)
  | LineBreak
deriving DecidableEq

/-- Modelled from the spec: the Block of §3, absent from the repository like
the rest of the converter.  A text-bearing block carries its raw text, a code
block its language tag and body lines, a table its rows of cells. -/
inductive Block where
  | Heading (level : Nat) (text : GoString)
  | Paragraph (text : GoString)
  | UnorderedListItem (depth : Nat) (text : GoString)
  | OrderedListItem (depth : Nat) (text : GoString)
  | CodeBlock (lang : GoString) (body : List GoString)
  | BlockQuote (text : GoString)
  | Table (rows : List (List GoString))
  | HorizontalRule
  | RawLine (text : GoString)
deriving DecidableEq

/-- Modelled from the spec: the input of the segmenter (§4.1), "sequence of
lines, newline-delimited; trailing newline optional".  The empty document has
no line, and a final newline does not start another line. -/
def splitLines : GoString → List GoString
  | [] => []
  | c :: cs =>
    if c = ch '\n' then [] :: splitLines cs
    else
      match splitLines cs with
      | [] => [[c]]
      | l :: ls => (c :: l) :: ls

/-- Modelled from the spec: part of the absent converter `md.ToJiraMD`.
Lines put back together, one newline between two lines. -/
def joinLines : List GoString → GoString
  | [] => []
  | [l] => l
  | l :: ls => l ++ ch '\n' :: joinLines ls

/-- Modelled from the spec: part of the absent converter `md.ToJiraMD`.
Whitespace inside a line. -/
def isSpace (c : Byte) : Bool := c = ch ' ' ∨ c = ch '\t'

/-- Modelled from the spec: part of the absent converter `md.ToJiraMD`.
A line with nothing but whitespace. -/
def isBlank (line : GoString) : Bool := line.all isSpace

/-- Modelled from the spec: part of the absent converter `md.ToJiraMD`.
Whitespace removed at both ends. -/
def trim (s : GoString) : GoString :=
  ((s.dropWhile isSpace).reverse.dropWhile isSpace).reverse

/-- Modelled from the spec: rule 1 of §4.1, "three or more identical fence
characters".  Gives the fence character, the length of the run and what
follows it on the line (the language tag on an opening fence). -/
def fenceOf (line : GoString) : Option (Byte × Nat × GoString) :=
  match line with
  | c :: _ =>
    if (c = ch '\x60' ∨ c = ch '~') ∧ 3 ≤ (line.takeWhile (· = c)).length then
      some (c, (line.takeWhile (· = c)).length, trim (line.dropWhile (· = c)))
    else none
  | [] => none

/-- Modelled from the spec: rule 2 of §4.1, "a line beginning with 1–6
heading marker characters followed by whitespace is a Heading; its level
equals the marker count (clamp at 6)".  Gives the level and the text after
the whitespace. -/
def headingOf (line : GoString) : Option (Nat × GoString) :=
  match line.dropWhile (· = ch '#') with
  | c :: rest =>
    if 1 ≤ (line.takeWhile (· = ch '#')).length ∧ isSpace c then
      some (min (line.takeWhile (· = ch '#')).length 6, rest.dropWhile isSpace)
    else none
  | [] => none

/-- Modelled from the spec: rule 3 of §4.1, "a line beginning with a
block-quote marker".  Gives the quoted text. -/
def quoteOf (line : GoString) : Option GoString :=
  match line with
  | c :: rest => if c = ch '>' then some (rest.dropWhile isSpace) else none
  | [] => none

/-- Modelled from the spec: part of the absent converter `md.ToJiraMD`.
A decimal digit. -/
def isDigit (c : Byte) : Bool := ch '0' ≤ c ∧ c ≤ ch '9'

/-- Modelled from the spec: part of the absent converter `md.ToJiraMD`.
Kind of a list item. -/
inductive ListKind where
  | unordered
  | ordered
deriving DecidableEq

/-- Modelled from the spec: rule 4 of §4.1, "an ordered-list marker (digits +
delimiter + whitespace) or unordered-list marker (bullet character +
whitespace) ... at a depth determined by leading indentation"; the
indentation unit chosen is 2 spaces.  Gives kind, depth and item text. -/
def listItemOf (line : GoString) : Option (ListKind × Nat × GoString) :=
  let depth := (line.takeWhile (· = ch ' ')).length / 2
  match line.dropWhile (· = ch ' ') with
  | c :: w :: rest =>
    if (c = ch '-' ∨ c = ch '*' ∨ c = ch '+') ∧ isSpace w then
      some (.unordered, depth, rest.dropWhile isSpace)
    else
      match (c :: w :: rest).dropWhile isDigit with
      | d :: w1 :: rest1 =>
        if isDigit c ∧ (d = ch '.' ∨ d = ch ')') ∧ isSpace w1 then
          some (.ordered, depth, rest1.dropWhile isSpace)
        else none
      | _ => none
  | _ => none

/-- Modelled from the spec: rule 5 of §4.1, "a line consisting only of 3+
repeated hyphen/asterisk/underscore characters (optionally
space-separated)". -/
def isRule (line : GoString) : Bool :=
  match line.filter (· ≠ ch ' ') with
  | c :: rest =>
    (c = ch '-' ∨ c = ch '*' ∨ c = ch '_') ∧ rest.all (· = c) ∧ 2 ≤ rest.length
  | [] => false

/-- Modelled from the spec: part of the absent converter `md.ToJiraMD`.
A pipe-delimited row. -/
def isPipeRow (line : GoString) : Bool := line.contains (ch '|')

/-- Modelled from the spec: the header-separator row of rule 6 of §4.1,
"pipes and hyphens/colons only" (spaces between them allowed). -/
def isSeparatorRow (line : GoString) : Bool :=
  line.contains (ch '|') ∧ line.contains (ch '-') ∧
    line.all (fun c => c = ch '|' ∨ c = ch '-' ∨ c = ch ':' ∨ c = ch ' ')

/-- Modelled from the spec: part of the absent converter `md.ToJiraMD`.
Pieces of a line between the occurrences of a byte. -/
def splitOn (d : Byte) : GoString → List GoString
  | [] => [[]]
  | c :: cs =>
    if c = d then [] :: splitOn d cs
    else
      match splitOn d cs with
      | [] => [[c]]
      | p :: ps => (c :: p) :: ps

/-- Modelled from the spec: part of the absent converter `md.ToJiraMD`.
Cells of a table row: the pieces between the pipes, without the empty
pieces outside a leading and a trailing pipe. -/
def cellsOf (line : GoString) : List GoString :=
  let cells := (splitOn (ch '|') (trim line)).map trim
  let cells := match cells with
    | [] :: rest => rest
    | _ => cells
  match cells.reverse with
  | [] :: rest => rest.reverse
  | _ => cells

/-- Modelled from the spec: part of the absent converter `md.ToJiraMD`.
What a line is at a line start, by the first rule of §4.1 that matches. -/
inductive LineClass where
  | fence (c : Byte) (len : Nat) (lang : GoString)
  | heading (level : Nat) (text : GoString)
  | quote (text : GoString)
  | item (kind : ListKind) (depth : Nat) (text : GoString)
  | rule
  | tableHeader
  | blank
  | text
deriving DecidableEq

/-- Modelled from the spec: the rule order of §4.1, "tie-break toward the
first matching pattern in this order per line".  Rule 5 does not apply
inside an open list or block quote (`inContinuation`), rule 6 looks at the
following line, and rule 7 separates blank lines from paragraph text. -/
def classify (inContinuation : Bool) (line : GoString) (next : Option GoString) : LineClass :=
  match fenceOf line with
  | some (c, n, lang) => .fence c n lang
  | none =>
  match headingOf line with
  | some (level, text) => .heading level text
  | none =>
  match quoteOf line with
  | some text => .quote text
  | none =>
  match listItemOf line with
  | some (kind, depth, text) => .item kind depth text
  | none =>
  if isRule line ∧ ¬ inContinuation then .rule
  else if isPipeRow line ∧ next.map isSeparatorRow = some true then .tableHeader
  else if isBlank line then .blank
  else .text

/-- Modelled from the spec: part of the absent converter `md.ToJiraMD`.
The block under construction during the scan. -/
inductive Pending where
  | nothing
  | afterListItem
  | paragraph (lines : List GoString)
  | quote (lines : List GoString)
  | code (fence : Byte) (len : Nat) (opening : GoString) (lang : GoString)
      (body : List GoString)
  | tableHeader (rows : List (List GoString))
  | table (rows : List (List GoString))
deriving DecidableEq

/-- Modelled from the spec: part of the absent converter `md.ToJiraMD`.
Blocks produced when the block under construction ends.  A code fence
that never closes falls back to verbatim emission: its lines are RawLines. -/
def Pending.flush : Pending → List Block
  | .nothing => []
  | .afterListItem => []
  | .paragraph lines => [.Paragraph (joinLines lines)]
  | .quote lines => [.BlockQuote (joinLines lines)]
  | .code _ _ opening _ body => (opening :: body).map .RawLine
  | .tableHeader rows => [.Table rows]
  | .table rows => [.Table rows]

/-- Modelled from the spec: part of the absent converter `md.ToJiraMD`.
An open list or block quote, in which rule 5 is switched off. -/
def Pending.inContinuation : Pending → Bool
  | .afterListItem => true
  | .quote _ => true
  | _ => false

/-- Modelled from the spec: part of the absent converter `md.ToJiraMD`.
A line met outside a code block and outside the rows of a table: the
blocks that end with it, and the block under construction after it. -/
def startLine (p : Pending) (line : GoString) (next : Option GoString) :
    List Block × Pending :=
  match classify p.inContinuation line next with
  | .fence c n lang => (p.flush, .code c n line lang [])
  | .heading level text => (p.flush ++ [.Heading level text], .nothing)
  | .quote text =>
    match p with
    | .quote lines => ([], .quote (lines ++ [text]))
    | _ => (p.flush, .quote [text])
  | .item .unordered depth text => (p.flush ++ [.UnorderedListItem depth text], .afterListItem)
  | .item .ordered depth text => (p.flush ++ [.OrderedListItem depth text], .afterListItem)
  | .rule => (p.flush ++ [.HorizontalRule], .nothing)
  | .tableHeader => (p.flush, .tableHeader [cellsOf line])
  | .blank => (p.flush ++ [.Paragraph []], .nothing)
  | .text =>
    match p with
    | .paragraph lines => ([], .paragraph (lines ++ [line]))
    | _ => (p.flush, .paragraph [line])

/-- Modelled from the spec: part of the absent converter `md.ToJiraMD`.
One step of the scan.  An open code block takes lines verbatim up to a
closing fence of the same character; a table takes its separator row and
then every contiguous pipe row. -/
def advance (p : Pending) (line : GoString) (next : Option GoString) :
    List Block × Pending :=
  match p with
  | .code fence len opening lang body =>
    match fenceOf line with
    | some (c, n, []) =>
      if c = fence ∧ len ≤ n then ([.CodeBlock lang body], .nothing)
      else ([], .code fence len opening lang (body ++ [line]))
    | _ => ([], .code fence len opening lang (body ++ [line]))
  | .tableHeader rows => ([], .table rows)
  | .table rows =>
    if isPipeRow line then ([], .table (rows ++ [cellsOf line]))
    else startLine p line next
  | _ => startLine p line next

/-- Modelled from the spec: the Block Segmenter of §4.1, a single
left-to-right scan in which every line goes to exactly one block. -/
def segmentFrom : Pending → List GoString → List Block
  | p, [] => p.flush
  | p, line :: rest =>
    (advance p line rest.head?).1 ++ segmentFrom (advance p line rest.head?).2 rest

/-- Modelled from the spec: the segmenter applied to a document (§4.1). -/
def segment (doc : GoString) : List Block := segmentFrom .nothing (splitLines doc)

/-- Modelled from the spec: part of the absent converter `md.ToJiraMD`.
Text before the first occurrence of `d`, and text after it. -/
def cutAt (d : GoString) : GoString → Option (GoString × GoString)
  | [] => none
  | c :: cs =>
    if d.isPrefixOf (c :: cs) then some ([], (c :: cs).drop d.length)
    else (cutAt d cs).map fun r => (c :: r.1, r.2)

/-- Modelled from the spec: part of the absent converter `md.ToJiraMD`.
Inline code: a backtick, text, a backtick.  With each span comes the
number of bytes it covers. -/
def codeAt (s : GoString) : Option (InlineSpan × Nat) :=
  match s with
  | c :: r =>
    if c = ch '\x60' then (cutAt [ch '\x60'] r).map fun x => (.InlineCode x.1, x.1.length + 2)
    else none
  | [] => none

/-- Modelled from the spec: part of the absent converter `md.ToJiraMD`.
What follows an opening bracket of a link or image: text, `](`, url,
`)`. -/
def linkParts (r : GoString) : Option (GoString × GoString) :=
  match cutAt (goLit "](") r with
  | some (text, r1) => (cutAt [ch ')'] r1).map fun x => (text, x.1)
  | none => none

/-- Modelled from the spec: part of the absent converter `md.ToJiraMD`.
Image: `![alt](url)`. -/
def imageAt (s : GoString) : Option (InlineSpan × Nat) :=
  match s with
  | c :: b :: r =>
    if c = ch '!' ∧ b = ch '[' then
      (linkParts r).map fun x => (.Image x.1 x.2, x.1.length + x.2.length + 5)
    else none
  | _ => none

/-- Modelled from the spec: part of the absent converter `md.ToJiraMD`.
Link: `[text](url)`. -/
def linkAt (s : GoString) : Option (InlineSpan × Nat) :=
  match s with
  | c :: r =>
    if c = ch '[' then
      (linkParts r).map fun x => (.Link x.1 x.2, x.1.length + x.2.length + 4)
    else none
  | [] => none

/-- Modelled from the spec: part of the absent converter `md.ToJiraMD`.
Emphasis with `n` repeated emphasis characters on each side of a
non-empty text. -/
def emphasisAt (n : Nat) (mk : GoString → InlineSpan) (s : GoString) :
    Option (InlineSpan × Nat) :=
  match s with
  | c :: _ =>
    if (c = ch '*' ∨ c = ch '_') ∧ (List.replicate n c).isPrefixOf s then
      match cutAt (List.replicate n c) (s.drop n) with
      | some (t, _) => if t ≠ [] then some (mk t, t.length + 2 * n) else none
      | none => none
    else none
  | [] => none

/-- Modelled from the spec: part of the absent converter `md.ToJiraMD`.
Manual line break: two or more spaces before a newline, or the explicit
marker, taken to be a backslash before the newline. -/
def breakAt (s : GoString) : Option (InlineSpan × Nat) :=
  match s.dropWhile (· = ch ' ') with
  | c :: r =>
    if 2 ≤ (s.takeWhile (· = ch ' ')).length ∧ c = ch '\n' then
      some (.LineBreak, (s.takeWhile (· = ch ' ')).length + 1)
    else if s.head? = some (ch '\\') ∧ r.head? = some (ch '\n') then some (.LineBreak, 2)
    else none
  | [] => none

/-- Modelled from the spec: the matching precedence of §4.2, InlineCode,
then Image, Link, BoldItalic, Bold, Italic (and the line break); `none` when
no span starts here, so that an unmatched opening delimiter stays plain
text. -/
def spanAt (s : GoString) : Option (InlineSpan × Nat) :=
  (codeAt s).orElse fun _ =>
  (imageAt s).orElse fun _ =>
  (linkAt s).orElse fun _ =>
  (emphasisAt 3 .BoldItalic s).orElse fun _ =>
  (emphasisAt 2 .Bold s).orElse fun _ =>
  (emphasisAt 1 .Italic s).orElse fun _ =>
  breakAt s

/-- Modelled from the spec: part of the absent converter `md.ToJiraMD`.
One more byte of plain text in front of a span sequence. -/
def plain (c : Byte) : List InlineSpan → List InlineSpan
  | .PlainText t :: rest => .PlainText (c :: t) :: rest
  | rest => .PlainText [c] :: rest

/-- Modelled from the spec: part of the absent converter `md.ToJiraMD`.
The tokenizer, leftmost first; `skip` counts the bytes that still
belong to the span found last. -/
def tokenizeFrom : Nat → GoString → List InlineSpan
  | _, [] => []
  | skip + 1, _ :: cs => tokenizeFrom skip cs
  | 0, c :: cs =>
    match spanAt (c :: cs) with
    | some (span, n) => span :: tokenizeFrom (n - 1) cs
    | none => plain c (tokenizeFrom 0 cs)

/-- Modelled from the spec: the Inline Span Tokenizer of §4.2, an ordered
sequence of spans covering the full text. -/
def tokenize (text : GoString) : List InlineSpan := tokenizeFrom 0 text

/-- Modelled from the spec: the span rows of the table of §4.3. -/
def emitSpan : InlineSpan → GoString
  | .PlainText t => t
  | .Bold t => goLit "*" ++ t ++ goLit "*"
  | .Italic t => goLit "_" ++ t ++ goLit "_"
  | .BoldItalic t => goLit "_*" ++ t ++ goLit "*_"
  | .InlineCode t => goLit "\x7b\x7b" ++ t ++ goLit "\x7d\x7d"
  | .Link text url => goLit "[" ++ text ++ goLit "|" ++ url ++ goLit "]"
  | .Image _ url => goLit "!" ++ url ++ goLit "!"
  | .LineBreak => goLit "\n"

/-- Modelled from the spec: part of the absent converter `md.ToJiraMD`.
The converted inline text of a block. -/
def convertInline (text : GoString) : GoString := (tokenize text).flatMap emitSpan

/-- Modelled from the spec: part of the absent converter `md.ToJiraMD`.
A table row: the separator before, between and after the cells. -/
def emitRow (sep : GoString) (cells : List GoString) : GoString :=
  sep ++ cells.flatMap fun cell => convertInline cell ++ sep

/-- Modelled from the spec: the block rows of the table of §4.3. -/
def emitBlock : Block → GoString
  | .Heading level text => goLit "h" ++ goLit (toString level) ++ goLit ". " ++ convertInline text
  | .Paragraph text => convertInline text
  | .UnorderedListItem depth text =>
    List.replicate (depth + 1) (ch '*') ++ goLit " " ++ convertInline text
  | .OrderedListItem depth text =>
    List.replicate (depth + 1) (ch '#') ++ goLit " " ++ convertInline text
  | .CodeBlock lang body =>
    goLit "\x7bcode" ++ (if lang = [] then [] else goLit ":" ++ lang) ++ goLit "\x7d\n" ++
      body.flatMap (fun l => l ++ goLit "\n") ++ goLit "\x7bcode\x7d"
  | .BlockQuote text =>
    goLit "\x7bquote\x7d\n" ++ convertInline text ++ goLit "\n\x7bquote\x7d"
  | .Table [] => []
  | .Table (header :: rows) =>
    joinLines (emitRow (goLit "||") header :: rows.map (emitRow (goLit "|")))
  | .HorizontalRule => goLit "----"
  | .RawLine text => text

/-- Modelled from the spec: part of the absent converter `md.ToJiraMD`.
The output buffer: block outputs appended in input order, each block
after the first on a new line. -/
def emitAll : Bool → List Block → GoString
  | _, [] => []
  | first, b :: bs => (if first then [] else goLit "\n") ++ emitBlock b ++ emitAll false bs

/-- Modelled from the spec: `convert` of §6, standing for `md.ToJiraMD`,
whose source is outside the repository. -/
def convert (markdownText : GoString) : GoString := emitAll true (segment markdownText)

/-! ## The shell -/

theorem Sprintf_usage (a : GoString) :
    Sprintf (goLit "Usage: %s <filename>\n") [.str a] =
      goLit "Usage: " ++ a ++ goLit " <filename>\n" := rfl

theorem Sprintf_open (e : GoError) :
    Sprintf (goLit "unable to open file: %v") [.err e] =
      goLit "unable to open file: " ++ e.Error := by
  rw [show Sprintf (goLit "unable to open file: %v") [.err e] =
    goLit "unable to open file: " ++ (e.Error ++ []) from rfl, List.append_nil]

theorem Sprintf_read (e : GoError) :
    Sprintf (goLit "unable to read file: %v") [.err e] =
      goLit "unable to read file: " ++ e.Error := by
  rw [show Sprintf (goLit "unable to read file: %v") [.err e] =
    goLit "unable to read file: " ++ (e.Error ++ []) from rfl, List.append_nil]

theorem main_usage (conv : GoString → GoString) (fs : FileSystem) (a0 : GoString)
    (rest : List GoString) (h : (a0 :: rest).length ≠ 2) :
    run conv fs (a0 :: rest) =
      ⟨[.index 0 (a0 :: rest).length,
        .stdoutWrite (goLit "Usage: " ++ a0 ++ goLit " <filename>\n"),
        .osExit 1], .exited 1⟩ := by
  simp only [run, main, bind, GoM.bind, index, Printf, osExit, h, ne_eq, not_false_eq_true,
    if_true, Sprintf_usage]
  simp

theorem main_two (conv : GoString → GoString) (fs : FileSystem) (a0 name : GoString) :
    run conv fs [a0, name] =
      match fs.Open name with
      | .error e =>
        ⟨[.index 1 2, .osOpen name,
          .stdoutWrite (goLit "unable to open file: " ++ e.Error), .osExit 1], .exited 1⟩
      | .ok f =>
        match fs.ReadAll f with
        | (_, some e) =>
          ⟨[.index 1 2, .osOpen name, .readAll f,
            .stdoutWrite (goLit "unable to read file: " ++ e.Error), .osExit 1], .exited 1⟩
        | (c, none) =>
          ⟨[.index 1 2, .osOpen name, .readAll f, .toJiraMD c,
            .stdoutWrite (conv c ++ goLit "\n")], .returned⟩ := by
  cases hO : fs.Open name with
  | error e =>
    simp [run, main, bind, GoM.bind, index, Printf, osExit, osOpen, pure, Sprintf_open, hO]
  | ok f =>
    rcases hR : fs.ReadAll f with ⟨c, _ | e⟩ <;>
    simp [run, main, bind, GoM.bind, index, Printf, osExit, osOpen, ioutilReadAll,
      callToJiraMD, Println, pure, Sprintf_read, hO, hR]

theorem main_no_args (conv : GoString → GoString) (fs : FileSystem) :
    run conv fs [] = ⟨[.index 0 0], .panicked 0 0⟩ := by
  simp [run, main, bind, GoM.bind, index]

theorem length_two {α : Type} (xs : List α) (x : α) (hlen : xs.length = 2)
    (h1 : xs[1]? = some x) : ∃ a0, xs = [a0, x] := by
  match xs, hlen with
  | [a, b], _ =>
    simp at h1
    exact ⟨a, by rw [h1]⟩

/-- C1: when the argument vector has length 2, the named file opens and
reading it yields the content `c` without error, standard output receives
exactly `ToJiraMD(string(c))` followed by one newline, in a single write and
with nothing else; the converter is called exactly once, on the whole
content, and `main` returns. -/
theorem main_prints_conversion (conv : GoString → GoString) (fs : FileSystem)
    (args : List GoString) (name : GoString) (f : File) (c : GoString)
    (hlen : args.length = 2) (hname : args[1]? = some name)
    (hopen : fs.Open name = .ok f) (hread : fs.ReadAll f = (c, none)) :
    (run conv fs args).stdout = conv c ++ goLit "\n" ∧
    converterCalls (run conv fs args).trace = [c] ∧
    (run conv fs args).trace =
      [.index 1 2, .osOpen name, .readAll f, .toJiraMD c,
        .stdoutWrite (conv c ++ goLit "\n")] ∧
    (run conv fs args).ending = .returned := by
  obtain ⟨a0, rfl⟩ := length_two args name hlen hname
  rw [main_two, hopen]
  simp only [hread]
  simp [Run.stdout, stdoutOf, converterCalls]

/-- C2: for a non-empty argument vector whose length is not 2, standard
output receives exactly `"Usage: " ++ args[0] ++ " <filename>"` followed by a
newline, the process exits with status 1, no file is opened or read and the
converter is not called. -/
theorem main_usage_error (conv : GoString → GoString) (fs : FileSystem)
    (args : List GoString) (a0 : GoString)
    (hlen : args.length ≠ 2) (h0 : args[0]? = some a0) :
    (run conv fs args).stdout = goLit "Usage: " ++ a0 ++ goLit " <filename>" ++ goLit "\n" ∧
    (run conv fs args).ending = .exited 1 ∧
    (run conv fs args).status = 1 ∧
    opened (run conv fs args).trace = [] ∧
    readFiles (run conv fs args).trace = [] ∧
    converterCalls (run conv fs args).trace = [] := by
  match args, h0 with
  | a :: rest, h0 =>
    simp at h0
    subst h0
    rw [main_usage conv fs a rest hlen]
    have hl : goLit " <filename>\n" = goLit " <filename>" ++ goLit "\n" := by decide
    simp [Run.stdout, Run.status, stdoutOf, opened, readFiles, converterCalls, hl]

/-- C3: when the argument vector has length 2 and opening the named file
fails with error `e`, standard output receives exactly
`"unable to open file: "` followed by the rendering of `e` and nothing after
it, the process exits with status 1, the open is attempted exactly once, and
the file is never read nor the converter called. -/
theorem main_open_error (conv : GoString → GoString) (fs : FileSystem)
    (args : List GoString) (name : GoString) (e : GoError)
    (hlen : args.length = 2) (hname : args[1]? = some name)
    (hopen : fs.Open name = .error e) :
    (run conv fs args).stdout = goLit "unable to open file: " ++ e.Error ∧
    (run conv fs args).ending = .exited 1 ∧
    (run conv fs args).status = 1 ∧
    opened (run conv fs args).trace = [name] ∧
    readFiles (run conv fs args).trace = [] ∧
    converterCalls (run conv fs args).trace = [] := by
  obtain ⟨a0, rfl⟩ := length_two args name hlen hname
  rw [main_two, hopen]
  simp [Run.stdout, Run.status, stdoutOf, opened, readFiles, converterCalls]

/-- C4: when the argument vector has length 2, the named file opens and
reading it fails with error `e` after delivering `readSoFar`, standard
output receives exactly `"unable to read file: "` followed by the rendering
of `e` and nothing after it, the process exits with status 1, the converter
is not called and none of the partially read bytes is written. -/
theorem main_read_error (conv : GoString → GoString) (fs : FileSystem)
    (args : List GoString) (name : GoString) (f : File) (readSoFar : GoString)
    (e : GoError) (hlen : args.length = 2) (hname : args[1]? = some name)
    (hopen : fs.Open name = .ok f) (hread : fs.ReadAll f = (readSoFar, some e)) :
    (run conv fs args).stdout = goLit "unable to read file: " ++ e.Error ∧
    (run conv fs args).ending = .exited 1 ∧
    (run conv fs args).status = 1 ∧
    converterCalls (run conv fs args).trace = [] ∧
    (run conv fs args).trace =
      [.index 1 2, .osOpen name, .readAll f,
        .stdoutWrite (goLit "unable to read file: " ++ e.Error), .osExit 1] := by
  obtain ⟨a0, rfl⟩ := length_two args name hlen hname
  rw [main_two, hopen]
  simp only [hread]
  simp [Run.stdout, Run.status, stdoutOf, converterCalls]

/-- C5: for a non-empty argument vector, the exit status is non-zero exactly
when the argument count is not 2, or opening the named file fails, or reading
it fails; a non-zero status is always 1; and with status 0 `main` has
returned normally after printing the conversion of the file content. -/
theorem main_exit_status (conv : GoString → GoString) (fs : FileSystem)
    (args : List GoString) (hne : args ≠ []) :
    ((run conv fs args).status ≠ 0 ↔
      (args.length ≠ 2 ∨
       (∃ name e, args[1]? = some name ∧ fs.Open name = .error e) ∨
       (∃ name f d e, args[1]? = some name ∧ fs.Open name = .ok f ∧
          fs.ReadAll f = (d, some e)))) ∧
    ((run conv fs args).status ≠ 0 → (run conv fs args).status = 1) ∧
    ((run conv fs args).status = 0 →
      (run conv fs args).ending = .returned ∧
      ∃ name f c, args[1]? = some name ∧ fs.Open name = .ok f ∧
        fs.ReadAll f = (c, none) ∧
        (run conv fs args).stdout = conv c ++ goLit "\n") := by
  by_cases hlen : args.length = 2
  · match args, hlen with
    | [a0, name], _ =>
      rw [main_two]
      cases hO : fs.Open name with
      | error e => simp [Run.status, hO]
      | ok f =>
        rcases hR : fs.ReadAll f with ⟨c, _ | e⟩
        · simp [Run.status, Run.stdout, stdoutOf, hR, hO]
        · simp [Run.status, hR, hO]
  · match args, hne with
    | a :: rest, _ =>
      rw [main_usage conv fs a rest hlen]
      simp only [Run.status]
      simp at hlen
      simp [hlen]

/-- C6: the text on standard output and the way the process ends are a
function of the argument vector and of the open/read outcome of the file it
names: two runs in file systems that agree on that outcome (same content, or
same error) cannot be told apart, whatever else differs. -/
theorem main_deterministic (conv : GoString → GoString) (fs1 fs2 : FileSystem)
    (args : List GoString)
    (h : ∀ name, args[1]? = some name → fs1.outcome name = fs2.outcome name) :
    (run conv fs1 args).stdout = (run conv fs2 args).stdout ∧
    (run conv fs1 args).status = (run conv fs2 args).status ∧
    (run conv fs1 args).ending = (run conv fs2 args).ending := by
  by_cases hlen : args.length = 2
  · match args, hlen with
    | [a0, name], _ =>
      have hn := h name (by simp)
      rw [main_two, main_two]
      unfold FileSystem.outcome at hn
      cases hO1 : fs1.Open name with
      | error e1 =>
        cases hO2 : fs2.Open name with
        | error e2 =>
          simp only [hO1, hO2] at hn
          simp at hn
          simp [Run.stdout, Run.status, stdoutOf, hn]
        | ok f2 =>
          simp only [hO1, hO2] at hn
          rcases hR2 : fs2.ReadAll f2 with ⟨c2, _ | e2⟩ <;> simp [hR2] at hn
      | ok f1 =>
        simp only [hO1] at hn
        cases hO2 : fs2.Open name with
        | error e2 =>
          simp only [hO2] at hn
          rcases hR1 : fs1.ReadAll f1 with ⟨c1, _ | e1⟩ <;> simp [hR1] at hn
        | ok f2 =>
          simp only [hO2] at hn
          rcases hR1 : fs1.ReadAll f1 with ⟨c1, _ | e1⟩ <;>
          rcases hR2 : fs2.ReadAll f2 with ⟨c2, _ | e2⟩ <;>
          simp [hR1, hR2] at hn <;>
          simp [Run.stdout, Run.status, stdoutOf, hn, hR1, hR2]
  · match args with
    | [] => rw [main_no_args, main_no_args]; simp
    | a :: rest =>
      rw [main_usage conv fs1 a rest hlen, main_usage conv fs2 a rest hlen]
      simp

/-- C9: for a non-empty argument vector `main` never stops with an index out
of range: every slice index it evaluates is within bounds, `args[1]` is read
only when the length is 2 and `args[0]` only in the usage branch (length
different from 2, and at least 1). -/
theorem main_index_safe (conv : GoString → GoString) (fs : FileSystem)
    (args : List GoString) (hne : args ≠ []) :
    (∀ i len, (run conv fs args).ending ≠ .panicked i len) ∧
    (∀ i len, Event.index i len ∈ (run conv fs args).trace →
      len = args.length ∧ i < len ∧
      ((i = 1 ∧ args.length = 2) ∨ (i = 0 ∧ args.length ≠ 2 ∧ 1 ≤ args.length))) := by
  by_cases hlen : args.length = 2
  · match args, hlen with
    | [a0, name], _ =>
      rw [main_two]
      cases hO : fs.Open name with
      | error e => simp
      | ok f => rcases hR : fs.ReadAll f with ⟨c, _ | e⟩ <;> simp [hR]
  · match args, hne with
    | a :: rest, _ =>
      rw [main_usage conv fs a rest hlen]
      simp
      simpa using hlen

/-! ## The converter -/

theorem splitLines_single (l : GoString) (hne : l ≠ []) (h : ∀ c ∈ l, c ≠ ch '\n') :
    splitLines l = [l] := by
  induction l with
  | nil => exact absurd rfl hne
  | cons c cs ih =>
    have hc : c ≠ ch '\n' := h c (by simp)
    cases cs with
    | nil => simp [splitLines, hc]
    | cons d ds =>
      have := ih (by simp) (fun x hx => h x (List.mem_cons_of_mem _ hx))
      simp only [splitLines] at this ⊢
      simp [hc, this]

theorem takeWhile_replicate_append (n : Nat) (c : Byte) (rest : GoString)
    (h : rest.head? ≠ some c) :
    (List.replicate n c ++ rest).takeWhile (· = c) = List.replicate n c := by
  induction n with
  | zero =>
    cases rest with
    | nil => rfl
    | cons d ds =>
      have hd : d ≠ c := by simpa using h
      simp [List.takeWhile, hd]
  | succ k ih => simp [List.replicate_succ, List.takeWhile, ih]

theorem dropWhile_replicate_append (n : Nat) (c : Byte) (rest : GoString)
    (h : rest.head? ≠ some c) :
    (List.replicate n c ++ rest).dropWhile (· = c) = rest := by
  induction n with
  | zero =>
    cases rest with
    | nil => rfl
    | cons d ds =>
      have hd : d ≠ c := by simpa using h
      simp [List.dropWhile, hd]
  | succ k ih => simp [List.replicate_succ, List.dropWhile, ih]

theorem dropWhile_isSpace_id (t : GoString) (h : ∀ c, t.head? = some c → isSpace c = false) :
    t.dropWhile isSpace = t := by
  cases t with
  | nil => rfl
  | cons c cs => simp [List.dropWhile, h c rfl]

theorem headingOf_markers (n : Nat) (t : GoString) (h1 : 1 ≤ n)
    (hs : ∀ c, t.head? = some c → isSpace c = false) :
    headingOf (List.replicate n (ch '#') ++ ch ' ' :: t) = some (min n 6, t) := by
  have hh : (ch ' ' :: t).head? ≠ some (ch '#') := by
    have : ch ' ' ≠ ch '#' := by decide
    simpa using this
  unfold headingOf
  rw [dropWhile_replicate_append n _ _ hh, takeWhile_replicate_append n _ _ hh]
  have : isSpace (ch ' ') = true := by decide
  simp [h1, this, dropWhile_isSpace_id t hs]

theorem fenceOf_markers (n : Nat) (rest : GoString) (h1 : 1 ≤ n) :
    fenceOf (List.replicate n (ch '#') ++ rest) = none := by
  obtain ⟨k, rfl⟩ : ∃ k, n = k + 1 := ⟨n - 1, by omega⟩
  have h1 : ch '#' ≠ ch '\x60' := by decide
  have h2 : ch '#' ≠ ch '~' := by decide
  simp [List.replicate_succ, fenceOf, h1, h2]

theorem segment_heading_line (n : Nat) (t : GoString) (h1 : 1 ≤ n) (h6 : n ≤ 6)
    (hnl : ∀ c ∈ t, c ≠ ch '\n') (hs : ∀ c, t.head? = some c → isSpace c = false) :
    segment (List.replicate n (ch '#') ++ ch ' ' :: t) = [.Heading n t] := by
  have hline : splitLines (List.replicate n (ch '#') ++ ch ' ' :: t) =
      [List.replicate n (ch '#') ++ ch ' ' :: t] := by
    apply splitLines_single
    · simp
    · intro c hc
      rcases List.mem_append.1 hc with h | h
      · rw [List.eq_of_mem_replicate h]; decide
      · rcases List.mem_cons.1 h with h | h
        · rw [h]; decide
        · exact hnl c h
  simp [segment, hline, segmentFrom, advance, startLine, classify,
    fenceOf_markers n _ h1, headingOf_markers n t h1 hs, Pending.flush, Pending.inContinuation,
    Nat.min_eq_left h6]

theorem convert_heading_line (n : Nat) (t : GoString) (h1 : 1 ≤ n) (h6 : n ≤ 6)
    (hnl : ∀ c ∈ t, c ≠ ch '\n') (hs : ∀ c, t.head? = some c → isSpace c = false) :
    convert (List.replicate n (ch '#') ++ ch ' ' :: t) =
      goLit "h" ++ goLit (toString n) ++ goLit ". " ++ convertInline t := by
  simp [convert, segment_heading_line n t h1 h6 hnl hs, emitAll, emitBlock]

theorem convert_examples :
    convert (goLit "**bold** and _ital_") = goLit "*bold* and _ital_" ∧
    convert (goLit "[text](http://x)") = goLit "[text|http://x]" ∧
    convert (goLit "- a\n- b") = goLit "* a\n* b" ∧
    convert (goLit "an \x60 unmatched *tick*") = goLit "an \x60 unmatched _tick_" ∧
    convert (goLit "|a|b|\n|-|-|\n|1|2|") = goLit "||a||b||\n|1|2|" := by
  refine ⟨?_, ?_, ?_, ?_, ?_⟩ <;> decide

theorem run_readable (conv : GoString → GoString) (fs : FileSystem) (args : List GoString)
    (name : GoString) (f : File) (c : GoString) (hlen : args.length = 2)
    (hname : args[1]? = some name) (hopen : fs.Open name = .ok f)
    (hread : fs.ReadAll f = (c, none)) :
    run conv fs args =
      ⟨[.index 1 2, .osOpen name, .readAll f, .toJiraMD c,
        .stdoutWrite (conv c ++ goLit "\n")], .returned⟩ := by
  obtain ⟨a0, rfl⟩ := length_two args name hlen hname
  rw [main_two, hopen]
  simp only [hread]

/-- C7: the conversion of the empty string is the empty string, so when the
argument vector names a readable file with empty content, `main` prints
exactly one newline character and returns normally (status 0). -/
theorem convert_empty :
    convert (goLit "") = goLit "" ∧
    ∀ (fs : FileSystem) (args : List GoString) (name : GoString) (f : File),
      args.length = 2 → args[1]? = some name → fs.Open name = .ok f →
      fs.ReadAll f = (goLit "", none) →
      (run convert fs args).stdout = goLit "\n" ∧
      (run convert fs args).ending = .returned ∧
      (run convert fs args).status = 0 := by
  have hc : convert (goLit "") = goLit "" := by decide
  refine ⟨hc, ?_⟩
  intro fs args name f hlen hname hopen hread
  rw [run_readable convert fs args name f (goLit "") hlen hname hopen hread, hc]
  refine ⟨?_, rfl, rfl⟩
  simp only [Run.stdout, stdoutOf, List.append_nil]
  rfl

/-- C8: `convert("# Title") == "h1. Title"`; a Heading of level `n` is emitted
as `h<n>. ` followed by the converted inline text, both as a block and as the
conversion of a one-line document made of `n` markers (1 to 6), a space and
the heading text; and for a readable file whose content is `# Title`, `main`
prints `h1. Title` followed by a newline. -/
theorem convert_heading :
    convert (goLit "# Title") = goLit "h1. Title" ∧
    (∀ (n : Nat) (t : GoString),
      emitBlock (.Heading n t) =
        goLit "h" ++ goLit (toString n) ++ goLit ". " ++ convertInline t) ∧
    (∀ (n : Nat) (t : GoString), 1 ≤ n → n ≤ 6 → (∀ c ∈ t, c ≠ ch '\n') →
      (∀ c, t.head? = some c → isSpace c = false) →
      segment (List.replicate n (ch '#') ++ ch ' ' :: t) = [.Heading n t] ∧
      convert (List.replicate n (ch '#') ++ ch ' ' :: t) =
        goLit "h" ++ goLit (toString n) ++ goLit ". " ++ convertInline t) ∧
    (∀ (fs : FileSystem) (args : List GoString) (name : GoString) (f : File),
      args.length = 2 → args[1]? = some name → fs.Open name = .ok f →
      fs.ReadAll f = (goLit "# Title", none) →
      (run convert fs args).stdout = goLit "h1. Title" ++ goLit "\n" ∧
      (run convert fs args).ending = .returned) := by
  have hc : convert (goLit "# Title") = goLit "h1. Title" := by decide
  refine ⟨hc, fun _ _ => rfl, ?_, ?_⟩
  · intro n t h1 h6 hnl hs
    exact ⟨segment_heading_line n t h1 h6 hnl hs, convert_heading_line n t h1 h6 hnl hs⟩
  · intro fs args name f hlen hname hopen hread
    rw [run_readable convert fs args name f (goLit "# Title") hlen hname hopen hread, hc]
    refine ⟨?_, rfl⟩
    simp only [Run.stdout, stdoutOf, List.append_nil]

/-! ## Instances on concrete runs -/

theorem main_prints_conversion_witness :
    argsOne.length = 2 ∧ argsOne[1]? = some (goLit "notes.md") ∧
    (singleFile (goLit "notes.md") (goLit "hello")).Open (goLit "notes.md") = .ok ⟨3⟩ ∧
    (singleFile (goLit "notes.md") (goLit "hello")).ReadAll ⟨3⟩ = (goLit "hello", none) ∧
    (run markConv (singleFile (goLit "notes.md") (goLit "hello")) argsOne).stdout =
      markConv (goLit "hello") ++ goLit "\n" :=
  ⟨by decide, by decide, rfl, rfl,
    (main_prints_conversion markConv (singleFile (goLit "notes.md") (goLit "hello")) argsOne
      (goLit "notes.md") ⟨3⟩ (goLit "hello") (by decide) (by decide) rfl rfl).1⟩

theorem main_usage_error_witness :
    argsNone.length ≠ 2 ∧ argsNone[0]? = some (goLit "md2jira") ∧
    (run markConv noFile argsNone).stdout =
      goLit "Usage: " ++ goLit "md2jira" ++ goLit " <filename>" ++ goLit "\n" ∧
    (run markConv noFile argsNone).status = 1 :=
  ⟨by decide, by decide,
    (main_usage_error markConv noFile argsNone (goLit "md2jira") (by decide) (by decide)).1,
    (main_usage_error markConv noFile argsNone (goLit "md2jira") (by decide) (by decide)).2.2.1⟩

theorem main_open_error_witness :
    argsOne.length = 2 ∧ argsOne[1]? = some (goLit "notes.md") ∧
    noFile.Open (goLit "notes.md") =
      .error ⟨goLit "open notes.md: no such file or directory"⟩ ∧
    (run markConv noFile argsOne).stdout =
      goLit "unable to open file: " ++ goLit "open notes.md: no such file or directory" ∧
    (run markConv noFile argsOne).status = 1 :=
  ⟨by decide, by decide, rfl,
    (main_open_error markConv noFile argsOne (goLit "notes.md")
      ⟨goLit "open notes.md: no such file or directory"⟩ (by decide) (by decide) rfl).1,
    (main_open_error markConv noFile argsOne (goLit "notes.md")
      ⟨goLit "open notes.md: no such file or directory"⟩ (by decide) (by decide) rfl).2.2.1⟩

theorem main_read_error_witness :
    argsOne.length = 2 ∧ argsOne[1]? = some (goLit "notes.md") ∧
    (brokenFile (goLit "notes.md") (goLit "# Ti")).Open (goLit "notes.md") = .ok ⟨3⟩ ∧
    (brokenFile (goLit "notes.md") (goLit "# Ti")).ReadAll ⟨3⟩ =
      (goLit "# Ti", some ⟨goLit "read: input/output error"⟩) ∧
    (run markConv (brokenFile (goLit "notes.md") (goLit "# Ti")) argsOne).stdout =
      goLit "unable to read file: " ++ goLit "read: input/output error" ∧
    (run markConv (brokenFile (goLit "notes.md") (goLit "# Ti")) argsOne).status = 1 :=
  ⟨by decide, by decide, rfl, rfl,
    (main_read_error markConv (brokenFile (goLit "notes.md") (goLit "# Ti")) argsOne
      (goLit "notes.md") ⟨3⟩ (goLit "# Ti") ⟨goLit "read: input/output error"⟩
      (by decide) (by decide) rfl rfl).1,
    (main_read_error markConv (brokenFile (goLit "notes.md") (goLit "# Ti")) argsOne
      (goLit "notes.md") ⟨3⟩ (goLit "# Ti") ⟨goLit "read: input/output error"⟩
      (by decide) (by decide) rfl rfl).2.2.1⟩

theorem main_exit_status_witness :
    argsOne ≠ [] ∧
    (run markConv (brokenFile (goLit "notes.md") (goLit "# Ti")) argsOne).status ≠ 0 ∧
    (run markConv (brokenFile (goLit "notes.md") (goLit "# Ti")) argsOne).status = 1 :=
  ⟨by decide,
    (main_exit_status markConv (brokenFile (goLit "notes.md") (goLit "# Ti")) argsOne
      (by decide)).1.2 (Or.inr (Or.inr ⟨goLit "notes.md", ⟨3⟩, goLit "# Ti",
        ⟨goLit "read: input/output error"⟩, by decide, rfl, rfl⟩)),
    (main_exit_status markConv (brokenFile (goLit "notes.md") (goLit "# Ti")) argsOne
      (by decide)).2.1
      ((main_exit_status markConv (brokenFile (goLit "notes.md") (goLit "# Ti")) argsOne
        (by decide)).1.2 (Or.inr (Or.inr ⟨goLit "notes.md", ⟨3⟩, goLit "# Ti",
          ⟨goLit "read: input/output error"⟩, by decide, rfl, rfl⟩)))⟩

theorem main_deterministic_witness :
    (∀ name, argsOne[1]? = some name →
      (singleFile (goLit "notes.md") (goLit "hello")).outcome name = manyFiles.outcome name) ∧
    (run markConv (singleFile (goLit "notes.md") (goLit "hello")) argsOne).stdout =
      (run markConv manyFiles argsOne).stdout ∧
    (run markConv (singleFile (goLit "notes.md") (goLit "hello")) argsOne).status =
      (run markConv manyFiles argsOne).status :=
  ⟨fun name h => by
      have hn : goLit "notes.md" = name := by simpa [argsOne] using h
      subst hn
      rfl,
    (main_deterministic markConv (singleFile (goLit "notes.md") (goLit "hello")) manyFiles
      argsOne (fun name h => by
        have hn : goLit "notes.md" = name := by simpa [argsOne] using h
        subst hn
        rfl)).1,
    (main_deterministic markConv (singleFile (goLit "notes.md") (goLit "hello")) manyFiles
      argsOne (fun name h => by
        have hn : goLit "notes.md" = name := by simpa [argsOne] using h
        subst hn
        rfl)).2.1⟩

theorem main_index_safe_witness :
    argsNone ≠ [] ∧ ∀ i len, (run markConv noFile argsNone).ending ≠ .panicked i len :=
  ⟨by decide, (main_index_safe markConv noFile argsNone (by decide)).1⟩

theorem convert_empty_witness :
    argsOne.length = 2 ∧ argsOne[1]? = some (goLit "notes.md") ∧
    (singleFile (goLit "notes.md") (goLit "")).Open (goLit "notes.md") = .ok ⟨3⟩ ∧
    (singleFile (goLit "notes.md") (goLit "")).ReadAll ⟨3⟩ = (goLit "", none) ∧
    (run convert (singleFile (goLit "notes.md") (goLit "")) argsOne).stdout = goLit "\n" ∧
    (run convert (singleFile (goLit "notes.md") (goLit "")) argsOne).status = 0 :=
  ⟨by decide, by decide, rfl, rfl,
    (convert_empty.2 (singleFile (goLit "notes.md") (goLit "")) argsOne (goLit "notes.md") ⟨3⟩
      (by decide) (by decide) rfl rfl).1,
    (convert_empty.2 (singleFile (goLit "notes.md") (goLit "")) argsOne (goLit "notes.md") ⟨3⟩
      (by decide) (by decide) rfl rfl).2.2⟩

theorem convert_heading_witness :
    (1 ≤ 3 ∧ 3 ≤ 6 ∧ (∀ c ∈ goLit "Plan *B*", c ≠ ch '\n') ∧
      (∀ c, (goLit "Plan *B*").head? = some c → isSpace c = false) ∧
      convert (List.replicate 3 (ch '#') ++ ch ' ' :: goLit "Plan *B*") =
        goLit "h" ++ goLit (toString 3) ++ goLit ". " ++ convertInline (goLit "Plan *B*")) ∧
    (argsOne.length = 2 ∧ argsOne[1]? = some (goLit "notes.md") ∧
      (singleFile (goLit "notes.md") (goLit "# Title")).Open (goLit "notes.md") = .ok ⟨3⟩ ∧
      (singleFile (goLit "notes.md") (goLit "# Title")).ReadAll ⟨3⟩ =
        (goLit "# Title", none) ∧
      (run convert (singleFile (goLit "notes.md") (goLit "# Title")) argsOne).stdout =
        goLit "h1. Title" ++ goLit "\n") :=
  ⟨⟨by decide, by decide, by decide, by decide,
    (convert_heading.2.2.1 3 (goLit "Plan *B*") (by decide) (by decide) (by decide)
      (by decide)).2⟩,
   ⟨by decide, by decide, rfl, rfl,
    (convert_heading.2.2.2 (singleFile (goLit "notes.md") (goLit "# Title")) argsOne
      (goLit "notes.md") ⟨3⟩ (by decide) (by decide) rfl rfl).1⟩⟩

end Md2Jira
